import Mathlib

/-!
Shallow embedding of the toy-query-engine sources (`src/table.rs`, `src/data.rs`,
`src/operators.rs`, `src/commands.rs`).

Conventions of the embedding:
* Rust `i64` values are modelled as `Int` (no arithmetic is performed on them, so
  no wrap-around is reachable), `usize` as `Nat`.
* Fallible Rust code returning `Result` is modelled with `Except`.
* Rust panics (`unreachable!()`, out-of-bounds `Vec` indexing, `Option::unwrap`)
  are modelled explicitly: evaluation returns `EvalResult.panicked` exactly when
  the Rust code would panic.
* The flat-file loaders (`load_cities`, `load_countries`, `load_languages`) read
  from disk; they are modelled by an environment `Env` giving, per dataset, either
  the list of typed records the loader would return or a load failure, matching
  the spec's loader-adapter contract `load(dataset) -> Result<Table, LoadError>`.
* `std::collections::HashMap` (used by `process_countby`) has an unspecified
  iteration order that varies between map instances.  The order in which the
  grouped `(value, count)` entries are materialised is therefore a parameter
  `ord : HashOrder` of the evaluator: the canonical first-insertion-order
  association list is computed faithfully, and `ord` reorders it the way the
  hash map's iteration would.  `ord = id` is one possible run.
-/

namespace ToyQuery

/-- `Cell` from `src/table.rs`: the tagged value stored in a table.  Constructors
`str`, `int64`, `optInt64` model `Cell::String`, `Cell::Int64`, `Cell::OptInt64`. -/
inductive Cell where
  | str (val : String)
  | int64 (val : Int)
  | optInt64 (val : Option Int)
deriving DecidableEq, Repr

/-- `Row` from `src/table.rs`. -/
structure Row where
  cells : List Cell
deriving DecidableEq, Repr

/-- `Table` from `src/table.rs`. -/
structure Table where
  header : List String
  numeric_columns : List String
  rows : List Row
deriving DecidableEq, Repr

/-- Helper mirroring the `enumerate().find(..)` scan inside
`Table::find_column_index_by_name` (`src/table.rs`): index of the first
occurrence of `name`. -/
def find_idx (name : String) : List String → Option Nat
  | [] => none
  | col :: rest => if col = name then some 0 else (find_idx name rest).map (fun i => i + 1)

/-- `Table::find_column_index_by_name` from `src/table.rs`. -/
def Table.find_column_index_by_name (t : Table) (name : String) : Option Nat :=
  find_idx name t.header

/-- `Dataset` (declared in `src/data.rs` in the full repository; the enum's three
variants are fixed by the `match` arms of `load_dataset` and `parse_operators`
in the files present, and by the spec's closed enumeration {City, Country,
Language}). -/
inductive Dataset where
  | city
  | country
  | language
deriving DecidableEq, Repr

/-- `City` record from `src/data.rs` (CityID is `i32` in Rust; modelled as `Int`). -/
structure City where
  CityID : Int
  CityName : String
  CountryCode : String
  CityPop : Int
deriving DecidableEq, Repr

/-- `Country` record from `src/data.rs`. -/
structure Country where
  CountryCode : String
  CountryName : String
  Continent : String
  CountryPop : Int
  Capital : Option Int
deriving DecidableEq, Repr

/-- `Language` record from `src/data.rs`. -/
structure Language where
  CountryCode : String
  Language : String
deriving DecidableEq, Repr

/-- `City::column_names` from `src/data.rs`. -/
def City.column_names : List String := ["CityID", "CityName", "CountryCode", "CityPop"]

/-- `City::numeric_columns` from `src/data.rs`. -/
def City.numeric_columns : List String := ["CityID", "CityPop"]

/-- `Country::column_names` from `src/data.rs`. -/
def Country.column_names : List String :=
  ["CountryCode", "CountryName", "Continent", "CountryPop", "Capital"]

/-- `Country::numeric_columns` from `src/data.rs` (note: it lists `Capital`,
matching the help text in `src/main.rs`). -/
def Country.numeric_columns : List String := ["CountryPop", "Capital"]

/-- `Language::column_names` from `src/data.rs`. -/
def Language.column_names : List String := ["CountryCode", "Language"]

/-- `Language::numeric_columns` from `src/data.rs`. -/
def Language.numeric_columns : List String := []

/-- Modelled from the spec: the `impl Into<Row>` conversions used by
`load_dataset` (`city.into()`, etc.) are not among the files under `src/`.
The cell variants are fixed by spec §3/§6 (names and codes are `Text`, ids and
populations are `Integer`, `Capital` is `OptionalInteger`) and agree with the
expected rows in the tests of `src/operators.rs`. -/
def City.toRow (c : City) : Row :=
  Row.mk [Cell.int64 c.CityID, Cell.str c.CityName, Cell.str c.CountryCode, Cell.int64 c.CityPop]

/-- Modelled from the spec: `Country` to `Row` conversion, see `City.toRow`. -/
def Country.toRow (c : Country) : Row :=
  Row.mk [Cell.str c.CountryCode, Cell.str c.CountryName, Cell.str c.Continent,
    Cell.int64 c.CountryPop, Cell.optInt64 c.Capital]

/-- Modelled from the spec: `Language` to `Row` conversion, see `City.toRow`. -/
def Language.toRow (l : ToyQuery.Language) : Row :=
  Row.mk [Cell.str l.CountryCode, Cell.str l.Language]

/-- `Operator` from `src/operators.rs`.  `From_` models `Operator::From`
(`from` is reserved in Lean); the `Box<Operator>` chains become plain
recursive arguments. -/
inductive Operator where
  | From_ (dataset : Dataset)
  | Select (chain : Operator) (column_names : List String)
  | Take (chain : Operator) (count : Nat)
  | OrderBy (chain : Operator) (column : String)
  | CountBy (chain : Operator) (column : String)
  | Join (chain : Operator) (right : Dataset) (column : String)
deriving DecidableEq, Repr

/-- `OperatorError` from `src/operators.rs`.  `CSVError`'s `Box<dyn Error>`
payload (the underlying csv/serde error) is dropped: it is opaque data that no
operator inspects. -/
inductive OperatorError where
  | CSVError (dataset : Dataset) (operator : String)
  | NoSuchColumn (operator : String) (chain : Operator) (column_name : String)
  | OrderByColumnNotNumeric (column_name : String)
deriving DecidableEq, Repr

/-- Result of `process_operator`: Rust's `Result<Table, OperatorError>` plus an
explicit `panicked` outcome for the panics reachable in the source. -/
inductive EvalResult where
  | ok (table : Table)
  | err (e : OperatorError)
  | panicked
deriving DecidableEq, Repr

/-- The dataset loaders (`load_cities` / `load_countries` / `load_languages` in
`src/data.rs`) read CSV files from disk; the environment records what each
loader returns: `some records` on success, `none` for a load error. -/
structure Env where
  cities : Option (List City)
  countries : Option (List Country)
  languages : Option (List Language)

/-- `load_dataset` from `src/operators.rs`: builds the `Table` for a dataset
from the loader's records, with the dataset's fixed header and numeric-column
list. -/
def load_dataset (env : Env) (dataset : Dataset) (operator : String) :
    Except OperatorError Table :=
  match dataset with
  | Dataset.city =>
    match env.cities with
    | some cities =>
      Except.ok { header := City.column_names,
                  rows := cities.map City.toRow,
                  numeric_columns := City.numeric_columns }
    | none => Except.error (OperatorError.CSVError Dataset.city operator)
  | Dataset.country =>
    match env.countries with
    | some countries =>
      Except.ok { header := Country.column_names,
                  rows := countries.map Country.toRow,
                  numeric_columns := Country.numeric_columns }
    | none => Except.error (OperatorError.CSVError Dataset.country operator)
  | Dataset.language =>
    match env.languages with
    | some languages =>
      Except.ok { header := Language.column_names,
                  rows := languages.map Language.toRow,
                  numeric_columns := Language.numeric_columns }
    | none => Except.error (OperatorError.CSVError Dataset.language operator)

/-- `find_column_index` from `src/operators.rs`. -/
def find_column_index (table : Table) (name : String) (chain : Operator)
    (current_operator : String) : Except OperatorError Nat :=
  match table.find_column_index_by_name name with
  | some index => Except.ok index
  | none => Except.error (OperatorError.NoSuchColumn current_operator chain name)

/-- The index-resolution loop of `process_select` (`src/operators.rs`): one
index per requested column name, failing on the first missing name. -/
def select_indices (table : Table) (chain : Operator) : List String → Except OperatorError (List Nat)
  | [] => Except.ok []
  | name :: rest =>
    match find_column_index table name chain "Select" with
    | Except.error e => Except.error e
    | Except.ok index =>
      match select_indices table chain rest with
      | Except.error e => Except.error e
      | Except.ok rest_indices => Except.ok (index :: rest_indices)

/-- The cell extraction `row.cells[*index].clone()` of `process_select`:
`none` models the out-of-bounds panic of Rust's `Vec` indexing. -/
def select_cells (row : Row) : List Nat → Option (List Cell)
  | [] => some []
  | index :: rest =>
    match row.cells.get? index, select_cells row rest with
    | some cell, some rest_cells => some (cell :: rest_cells)
    | _, _ => none

/-- The row-projection loop of `process_select`. -/
def select_rows (col_indices : List Nat) : List Row → Option (List Row)
  | [] => some []
  | row :: rest =>
    match select_cells row col_indices, select_rows col_indices rest with
    | some cells, some rest_rows => some (Row.mk cells :: rest_rows)
    | _, _ => none

/-- The comparator of `sort_table` (`src/operators.rs`) reads
`row.cells[col_index]` and requires `Cell::Int64`: `some` is the extracted key,
`none` means the comparator would panic (out-of-bounds indexing, or the
`unreachable!()` arm for a non-`Int64` cell). -/
def sort_key (col_index : Nat) (row : Row) : Option Int :=
  match row.cells.get? col_index with
  | some (Cell.int64 val) => some val
  | _ => none

/-- The sort key with the (never observed on non-panicking runs) default `0`. -/
def sort_keyD (col_index : Nat) (row : Row) : Int :=
  (sort_key col_index row).getD 0

/-- The descending order used by `sort_table`'s comparator
`b_val.cmp(&a_val)`: `a` may precede `b` iff `a`'s key is ≥ `b`'s key. -/
def row_ge (col_index : Nat) (a b : Row) : Prop :=
  sort_keyD col_index b ≤ sort_keyD col_index a

instance (col_index : Nat) : DecidableRel (row_ge col_index) :=
  fun _ _ => Int.decLe _ _

instance (col_index : Nat) : IsTotal Row (row_ge col_index) :=
  ⟨fun a b => Int.le_total (sort_keyD col_index b) (sort_keyD col_index a)⟩

instance (col_index : Nat) : IsTrans Row (row_ge col_index) :=
  ⟨fun _ _ _ hab hbc => le_trans hbc hab⟩

/-- `sort_table` from `src/operators.rs`: Rust's stable `Vec::sort_by` with the
descending comparator, modelled by the stable `List.insertionSort` (extensionally
equal to any stable sort for this total preorder).  `none` models the panic of
the comparator: Rust's sort calls the comparator on every element whenever the
vector has at least two elements, so it panics exactly when some row lacks an
`Int64` cell at `col_index` and there are two or more rows. -/
def sort_table (rows : List Row) (col_index : Nat) : Option (List Row) :=
  if rows.length ≤ 1 then some rows
  else if rows.all (fun row => (sort_key col_index row).isSome) then
    some (List.insertionSort (row_ge col_index) rows)
  else none

/-- One `*m.entry(cell).or_default() += 1` step of `process_countby`'s fold, on
the association-list view of the `HashMap` (first-insertion order). -/
def bump_count (cell : Cell) : List (Cell × Nat) → List (Cell × Nat)
  | [] => [(cell, 1)]
  | (key, count) :: rest =>
    if key = cell then (key, count + 1) :: rest else (key, count) :: bump_count cell rest

/-- The grouping fold of `process_countby` (`src/operators.rs`): the contents of
the `HashMap<Cell, usize>` after folding all rows, as an association list in
first-insertion order.  `none` models the panic of `x.cells[col_index]` when a
row is too short. -/
def countby_pairs (col_index : Nat) : List Row → List (Cell × Nat) → Option (List (Cell × Nat))
  | [], acc => some acc
  | row :: rest, acc =>
    match row.cells.get? col_index with
    | some cell => countby_pairs col_index rest (bump_count cell acc)
    | none => none

/-- The iteration order of `HashMap` is unspecified and varies between map
instances; a `HashOrder` is the reordering it applies to the grouped entries
when `process_countby` materialises them (any permutation can occur). -/
def HashOrder : Type := List (Cell × Nat) → List (Cell × Nat)

/-- The joined row of `process_join` (`src/operators.rs`): the left row's cells
followed by the right row's cells with the cell at `right_index` skipped. -/
def join_row (right_index : Nat) (left_row right_row : Row) : Row :=
  Row.mk (left_row.cells ++ right_row.cells.eraseIdx right_index)

/-- The inner loop of `process_join`'s nested-loop join for one left row;
`none` models the panic of the unchecked `cells[...]` indexing. -/
def join_one (left_index right_index : Nat) (left_row : Row) : List Row → Option (List Row)
  | [] => some []
  | right_row :: rest =>
    match left_row.cells.get? left_index, right_row.cells.get? right_index with
    | some a, some b =>
      match join_one left_index right_index left_row rest with
      | some rows => some (if a = b then join_row right_index left_row right_row :: rows else rows)
      | none => none
    | _, _ => none

/-- The outer loop of `process_join`'s nested-loop join (left-major order). -/
def join_rows (left_index right_index : Nat) : List Row → List Row → Option (List Row)
  | [], _ => some []
  | left_row :: rest, right_rows =>
    match join_one left_index right_index left_row right_rows,
          join_rows left_index right_index rest right_rows with
    | some rows1, some rows2 => some (rows1 ++ rows2)
    | _, _ => none

/-- `process_operator` from `src/operators.rs`, with the bodies of the
per-operator helpers (`process_from`, `process_select`, `process_take`,
`process_orderby`, `process_countby`, `process_join`) inlined at their single
call sites.  `ord` is the hash-map iteration order used by `CountBy` (see
`HashOrder`), `env` the loader environment. -/
def process_operator (ord : HashOrder) (env : Env) : Operator → EvalResult
  | Operator.From_ dataset =>
    -- process_from / load_dataset
    match load_dataset env dataset "FROM" with
    | Except.ok table => EvalResult.ok table
    | Except.error e => EvalResult.err e
  | Operator.Select chain column_names =>
    -- process_select
    match process_operator ord env chain with
    | EvalResult.ok table =>
      match select_indices table chain column_names with
      | Except.error e => EvalResult.err e
      | Except.ok col_indices =>
        match select_rows col_indices table.rows with
        | some rows =>
          EvalResult.ok
            { header := column_names,
              rows := rows,
              numeric_columns :=
                column_names.filter (fun name => decide (name ∈ table.numeric_columns)) }
        | none => EvalResult.panicked
    | EvalResult.err e => EvalResult.err e
    | EvalResult.panicked => EvalResult.panicked
  | Operator.Take chain count =>
    -- process_take
    match process_operator ord env chain with
    | EvalResult.ok table =>
      EvalResult.ok { header := table.header,
                      rows := table.rows.take count,
                      numeric_columns := table.numeric_columns }
    | EvalResult.err e => EvalResult.err e
    | EvalResult.panicked => EvalResult.panicked
  | Operator.OrderBy chain column =>
    -- process_orderby
    match process_operator ord env chain with
    | EvalResult.ok table =>
      if column ∈ table.numeric_columns then
        match find_column_index table column chain "ORDERBY" with
        | Except.error e => EvalResult.err e
        | Except.ok col_index =>
          match sort_table table.rows col_index with
          | some rows =>
            EvalResult.ok { header := table.header,
                            numeric_columns := table.numeric_columns,
                            rows := rows }
          | none => EvalResult.panicked
      else EvalResult.err (OperatorError.OrderByColumnNotNumeric column)
    | EvalResult.err e => EvalResult.err e
    | EvalResult.panicked => EvalResult.panicked
  | Operator.CountBy chain column =>
    -- process_countby; note: the source sorts the 2-cell histogram rows at
    -- `col_index`, the column's index in the *input* table.
    match process_operator ord env chain with
    | EvalResult.ok table =>
      match find_column_index table column chain "COUNTBY" with
      | Except.error e => EvalResult.err e
      | Except.ok col_index =>
        match countby_pairs col_index table.rows [] with
        | none => EvalResult.panicked
        | some pairs =>
          match sort_table ((ord pairs).map (fun p => Row.mk [p.1, Cell.int64 (Int.ofNat p.2)]))
              col_index with
          | some rows =>
            EvalResult.ok
              { header := [column, "count"],
                numeric_columns :=
                  if column ∈ table.numeric_columns then [column, "count"] else ["count"],
                rows := rows }
          | none => EvalResult.panicked
    | EvalResult.err e => EvalResult.err e
    | EvalResult.panicked => EvalResult.panicked
  | Operator.Join chain right column =>
    -- process_join
    match process_operator ord env chain with
    | EvalResult.ok left =>
      match load_dataset env right "JOIN" with
      | Except.error e => EvalResult.err e
      | Except.ok right_table =>
        if column ∈ left.header ∧ column ∈ right_table.header then
          match left.find_column_index_by_name column,
                right_table.find_column_index_by_name column with
          | some left_index, some right_index =>
            match join_rows left_index right_index left.rows right_table.rows with
            | some rows =>
              EvalResult.ok
                { header :=
                    left.header ++ right_table.header.filter (fun name => decide (name ≠ column)),
                  numeric_columns :=
                    left.numeric_columns ++
                      right_table.numeric_columns.filter (fun name => decide (name ≠ column)),
                  rows := rows }
            | none => EvalResult.panicked
          | _, _ => EvalResult.panicked  -- the source's .unwrap() calls
        else EvalResult.err (OperatorError.NoSuchColumn "JOIN" chain column)
    | EvalResult.err e => EvalResult.err e
    | EvalResult.panicked => EvalResult.panicked

/-- `Command` from `src/commands.rs`. -/
inductive Command where
  | Exit
  | Help
  | Operator (op : ToyQuery.Operator)
  | InputError (msg : String)
  | NoInput
deriving DecidableEq, Repr

/-- Splitting a character list at every separator character (the separator is
dropped, empty segments are kept), as Rust's `str::split` does on its
character-level view. -/
def split_chars (is_sep : Char → Bool) (cs : List Char) : List (List Char) :=
  cs.foldr
    (fun c acc =>
      if is_sep c then [] :: acc
      else
        match acc with
        | [] => [[c]]
        | word :: rest => (c :: word) :: rest)
    [[]]

/-- Rust's `str::split(",")` used by the SELECT arm of `parse_operators`
(empty segments kept; the caller filters them). -/
def split_comma (s : String) : List String :=
  (split_chars (fun c => c = ',') s.data).map (fun w => String.mk w)

/-- Rust's `str::split_whitespace` used by `parse_command`: split on whitespace
runs, dropping empty segments. -/
def split_whitespace_words (s : String) : List String :=
  ((split_chars Char.isWhitespace s.data).filter (fun w => !w.isEmpty)).map (fun w => String.mk w)

/-- Rust's `str::parse::<usize>` used by the TAKE arm: an optional leading `+`
followed by one or more ASCII digits (the `usize` overflow failure is not
modelled; no claim involves counts near `2^64`). -/
def parse_usize (s : String) : Option Nat :=
  let cs := if s.data.head? = some '+' then s.data.tail else s.data
  if cs.isEmpty then none
  else if cs.all Char.isDigit then
    some (cs.foldl (fun n c => n * 10 + (c.toNat - 48)) 0)
  else none

/-- The error text `str::parse::<usize>` produces for the inputs reachable
here: empty input or an invalid digit. -/
def parse_usize_error (s : String) : String :=
  let cs := if s.data.head? = some '+' then s.data.tail else s.data
  if cs.isEmpty then "cannot parse integer from empty string"
  else "invalid digit found in string"

/-- The `while let Some(token) = token_iter.next()` loop of `parse_operators`
(`src/commands.rs`).  `tokens` is the full original token list (used by the
`Invalid Input` messages), `chain` the operator built so far, and the third
argument the tokens not yet consumed. -/
def parse_loop (tokens : List String) : Option Operator → List String → Except String (Option Operator)
  | chain, [] => Except.ok chain
  | chain, token :: rest =>
    if token = "FROM" then
      match chain with
      | some _ => Except.error "FROM must always be the first operator."
      | none =>
        match rest with
        | arg :: rest2 =>
          if arg = "language.csv" then
            parse_loop tokens (some (Operator.From_ Dataset.language)) rest2
          else if arg = "city.csv" then
            parse_loop tokens (some (Operator.From_ Dataset.city)) rest2
          else if arg = "country.csv" then
            parse_loop tokens (some (Operator.From_ Dataset.country)) rest2
          else Except.error ("Invalid argument to FROM: Some(\"" ++ arg ++ "\")")
        | [] => Except.error "Invalid argument to FROM: None"
    else if token = "SELECT" then
      match rest with
      | columns :: rest2 =>
        match chain with
        | none =>
          Except.error "SELECT can't be the first command; It must be preceded by at least a FROM."
        | some c =>
          parse_loop tokens
            (some (Operator.Select c ((split_comma columns).filter (fun s => !s.isEmpty)))) rest2
      | [] => Except.error "SELECT takes at least one column name to select on."
    else if token = "TAKE" then
      match rest with
      | count :: rest2 =>
        match chain with
        | none =>
          Except.error "TAKE can't be the first command; It must be preceded by at least a FROM."
        | some c =>
          match parse_usize count with
          | some n => parse_loop tokens (some (Operator.Take c n)) rest2
          | none =>
            Except.error
              ("Invalid value passed to TAKE operator: " ++ count ++
                ". Must be a positive integer.\n Full error message: " ++ parse_usize_error count)
      | [] => Except.error "TAKE must be followed by the number of rows to take."
    else if token = "ORDERBY" then
      match rest with
      | column :: rest2 =>
        match chain with
        | none =>
          Except.error "ORDERBY can't be the first command; It must be preceded by at least a FROM."
        | some c => parse_loop tokens (some (Operator.OrderBy c column)) rest2
      | [] => Except.error "ORDERBY must be followed by the name of the column to order by."
    else if token = "COUNTBY" then
      match rest with
      | column :: rest2 =>
        match chain with
        | none =>
          Except.error "COUNTBY can't be the first command; It must be preceded by at least a FROM."
        | some c => parse_loop tokens (some (Operator.CountBy c column)) rest2
      | [] => Except.error "COUNTBY must be followed by the name of the column to count."
    else if token = "JOIN" then
      match chain with
      | some c =>
        match rest with
        | ds :: rest2 =>
          match (if ds = "language.csv" then some Dataset.language
                 else if ds = "city.csv" then some Dataset.city
                 else if ds = "country.csv" then some Dataset.country
                 else none) with
          | some dataset =>
            match rest2 with
            | column :: rest3 => parse_loop tokens (some (Operator.Join c dataset column)) rest3
            | [] =>
              Except.error
                "JOIN must be followed by the dataset and the name of the column to join on."
          | none => Except.error ("Invalid dataset to JOIN on: " ++ ds)
        | [] =>
          Except.error "JOIN must be followed by the dataset and the name of the column to join on."
      | none =>
        Except.error "JOIN can't be the first command; It must be preceded by at least a FROM."
    else Except.error ("Invalid Input: " ++ String.intercalate " " tokens)

/-- `parse_operators` from `src/commands.rs`. -/
def parse_operators (tokens : List String) : Except String Operator :=
  match parse_loop tokens none tokens with
  | Except.error e => Except.error e
  | Except.ok (some chain) => Except.ok chain
  | Except.ok none => Except.error ("Invalid Input: " ++ String.intercalate " " tokens)

/-- Rust's `str::strip_suffix("\n")` used by `parse_command`: drops one
trailing newline character, or yields `none` when the string does not end in
one. -/
def strip_newline (s : String) : Option String :=
  if s.data.getLast? = some '\n' then some (String.mk s.data.dropLast) else none

/-- `parse_command` from `src/commands.rs`. -/
def parse_command (input : String) : Command :=
  match strip_newline input with
  | some val =>
    if val = "help" then Command.Help
    else if val = "exit" then Command.Exit
    else
      let tokens := split_whitespace_words val
      if tokens.isEmpty then Command.NoInput
      else
        match parse_operators tokens with
        | Except.ok operator => Command.Operator operator
        | Except.error e => Command.InputError e
  | none => Command.NoInput

/-- The two structural `Table` invariants stated in spec §3: every row has one
cell per header entry, and every declared numeric column appears in the
header. -/
def table_wf (t : Table) : Prop :=
  (∀ r ∈ t.rows, r.cells.length = t.header.length) ∧ ∀ n ∈ t.numeric_columns, n ∈ t.header

/-- Whether an operator chain contains no `CountBy` node (the only node whose
output depends on the hash map's iteration order). -/
def countby_free : Operator → Bool
  | Operator.From_ _ => true
  | Operator.Select chain _ => countby_free chain
  | Operator.Take chain _ => countby_free chain
  | Operator.OrderBy chain _ => countby_free chain
  | Operator.CountBy _ _ => false
  | Operator.Join chain _ _ => countby_free chain

/-! ### Concrete loader environments used by the witnesses and counterexamples -/

/-- Two city records with distinct populations. -/
def env_city_pops : Env := ⟨some [⟨1, "A", "AA", 100⟩, ⟨2, "B", "BB", 200⟩], none, none⟩

/-- Three city records whose populations are 5, 1, 1. -/
def env_city_dup_pops : Env := ⟨some [⟨1, "A", "AA", 5⟩, ⟨2, "B", "BB", 1⟩, ⟨3, "C", "CC", 1⟩], none, none⟩

/-- Two country records (one with a capital, one without). -/
def env_two_countries : Env :=
  ⟨none, some [⟨"AAA", "Aland", "X", 10, some 1⟩, ⟨"BBB", "Bland", "Y", 20, none⟩], none⟩

/-- One country record. -/
def env_one_country : Env := ⟨none, some [⟨"AAA", "Aland", "X", 10, some 1⟩], none⟩

/-- Two language records with distinct languages. -/
def env_two_languages : Env := ⟨none, none, some [⟨"AA", "x"⟩, ⟨"BB", "y"⟩]⟩

/-- One city and one country sharing the country code "AA". -/
def env_city_country : Env :=
  ⟨some [⟨1, "A", "AA", 5⟩], some [⟨"AA", "Aland", "X", 10, some 1⟩], none⟩

/-- Two cities with populations 5 and 9. -/
def env_city_two : Env := ⟨some [⟨1, "A", "AA", 5⟩, ⟨2, "B", "BB", 9⟩], none, none⟩

/-- One city and one language record. -/
def env_city_lang : Env := ⟨some [⟨1, "A", "AA", 5⟩], none, some [⟨"AA", "x"⟩]⟩

/-- The fixed header of each dataset, as `load_dataset` builds it. -/
def dataset_column_names : Dataset → List String
  | Dataset.city => City.column_names
  | Dataset.country => Country.column_names
  | Dataset.language => Language.column_names

/-- The fixed numeric-column list of each dataset, as `load_dataset` builds it. -/
def dataset_numeric_columns : Dataset → List String
  | Dataset.city => City.numeric_columns
  | Dataset.country => Country.numeric_columns
  | Dataset.language => Language.numeric_columns

/-- The table `FROM language.csv` produces under `env_two_languages`. -/
def table_lang2 : Table :=
  { header := Language.column_names, numeric_columns := Language.numeric_columns,
    rows := [Language.toRow ⟨"AA", "x"⟩, Language.toRow ⟨"BB", "y"⟩] }

/-- The table `FROM country.csv` produces under `env_one_country`. -/
def table_country1 : Table :=
  { header := Country.column_names, numeric_columns := Country.numeric_columns,
    rows := [Country.toRow ⟨"AAA", "Aland", "X", 10, some 1⟩] }

/-- The table `FROM city.csv` produces under `env_city_two`. -/
def table_city2 : Table :=
  { header := City.column_names, numeric_columns := City.numeric_columns,
    rows := [City.toRow ⟨1, "A", "AA", 5⟩, City.toRow ⟨2, "B", "BB", 9⟩] }

/-- The table `FROM city.csv ORDERBY CityPop` produces under `env_city_two`. -/
def table_city_sorted : Table :=
  { header := City.column_names, numeric_columns := City.numeric_columns,
    rows := [City.toRow ⟨2, "B", "BB", 9⟩, City.toRow ⟨1, "A", "AA", 5⟩] }

/-! ### Helper lemmas about the embedded operations -/

theorem find_idx_lt_length {name : String} :
    ∀ {l : List String} {i : Nat}, find_idx name l = some i → i < l.length := by
  intro l
  induction l with
  | nil => intro i h; simp [find_idx] at h
  | cons col rest ih =>
    intro i h
    rw [find_idx] at h
    split at h
    · cases h; simp
    · rw [Option.map_eq_some'] at h
      obtain ⟨j, hj, rfl⟩ := h
      simpa using ih hj

theorem find_idx_of_mem {name : String} :
    ∀ {l : List String}, name ∈ l → ∃ i, find_idx name l = some i := by
  intro l
  induction l with
  | nil => intro h; simp at h
  | cons col rest ih =>
    intro h
    by_cases hc : col = name
    · exact ⟨0, by simp [find_idx, hc]⟩
    · have hmem : name ∈ rest := by
        cases h with
        | head => exact absurd rfl hc
        | tail _ h => exact h
      obtain ⟨j, hj⟩ := ih hmem
      exact ⟨j + 1, by simp [find_idx, hc, hj]⟩

theorem select_indices_length {table : Table} {chain : Operator} :
    ∀ {names : List String} {idxs : List Nat},
      select_indices table chain names = Except.ok idxs → idxs.length = names.length := by
  intro names
  induction names with
  | nil => intro idxs h; cases h; rfl
  | cons name rest ih =>
    intro idxs h
    rw [select_indices] at h
    split at h
    · cases h
    · split at h
      · cases h
      · cases h
        simpa using ih (by assumption)

theorem select_cells_length {row : Row} :
    ∀ {idxs : List Nat} {cs : List Cell},
      select_cells row idxs = some cs → cs.length = idxs.length := by
  intro idxs
  induction idxs with
  | nil => intro cs h; cases h; rfl
  | cons i rest ih =>
    intro cs h
    rw [select_cells] at h
    split at h
    · cases h
      simpa using ih (by assumption)
    · cases h

theorem select_rows_spec {idxs : List Nat} :
    ∀ {rows out : List Row}, select_rows idxs rows = some out →
      out.length = rows.length ∧ ∀ r ∈ out, r.cells.length = idxs.length := by
  intro rows
  induction rows with
  | nil =>
    intro out h
    cases h
    exact ⟨rfl, by simp⟩
  | cons row rest ih =>
    intro out h
    rw [select_rows] at h
    split at h
    · cases h
      rename_i cells rest_rows hcells hrest
      obtain ⟨hlen, hmem⟩ := ih hrest
      refine ⟨by simp [hlen], ?_⟩
      intro r hr
      rcases List.mem_cons.mp hr with rfl | hr
      · simpa using select_cells_length hcells
      · exact hmem r hr
    · cases h

theorem sort_table_perm {rows out : List Row} {i : Nat}
    (h : sort_table rows i = some out) : out.Perm rows := by
  rw [sort_table] at h
  split at h
  · cases h; exact List.Perm.refl _
  · split at h
    · cases h; exact List.perm_insertionSort _ _
    · cases h

theorem sort_table_chain' {rows out : List Row} {i : Nat}
    (h : sort_table rows i = some out) : out.Chain' (row_ge i) := by
  rw [sort_table] at h
  split at h
  · cases h
    match rows, (by assumption : rows.length ≤ 1) with
    | [], _ => exact List.chain'_nil
    | [r], _ => exact List.chain'_singleton r
  · split at h
    · cases h
      exact (List.sorted_insertionSort (row_ge i) rows).chain'
    · cases h

theorem sort_table_idem {rows out : List Row} {i : Nat}
    (h : sort_table rows i = some out) : sort_table out i = some out := by
  rw [sort_table] at h
  split at h
  · cases h
    rw [sort_table]
    rw [if_pos (by assumption)]
  · split at h
    · cases h
      have hperm : (List.insertionSort (row_ge i) rows).Perm rows :=
        List.perm_insertionSort _ _
      rw [sort_table, if_neg (by rw [hperm.length_eq]; assumption)]
      rw [if_pos ?_]
      · rw [(List.sorted_insertionSort (row_ge i) rows).insertionSort_eq]
      · rw [List.all_eq_true] at *
        intro r hr
        exact (by assumption : ∀ r ∈ rows, ((sort_key i r).isSome = true)) r (hperm.mem_iff.mp hr)
    · cases h

theorem join_one_spec {li ri : Nat} {lr : Row} :
    ∀ {rrows out : List Row}, join_one li ri lr rrows = some out →
      out = (rrows.filter
        (fun rr => lr.cells.get? li == rr.cells.get? ri)).map (join_row ri lr) := by
  intro rrows
  induction rrows with
  | nil => intro out h; cases h; rfl
  | cons rr rest ih =>
    intro out h
    rw [join_one] at h
    split at h
    · rename_i a b ha hb
      split at h
      · rename_i rows hrows
        cases h
        rw [ih hrows, List.filter_cons]
        simp only [List.get?_eq_getElem?] at ha hb ⊢
        by_cases hab : a = b
        · simp [ha, hb, hab]
        · simp [ha, hb, hab]
      · cases h
    · cases h

theorem join_one_bounds {li ri : Nat} {lr : Row} :
    ∀ {rrows out : List Row}, join_one li ri lr rrows = some out →
      ∀ rr ∈ rrows, (rr.cells.get? ri).isSome := by
  intro rrows
  induction rrows with
  | nil => intro out _ rr hrr; simp at hrr
  | cons rr0 rest ih =>
    intro out h rr hrr
    rw [join_one] at h
    split at h
    · rename_i a b _ hb
      split at h
      · rcases List.mem_cons.mp hrr with rfl | hrr
        · simp only [List.get?_eq_getElem?] at hb
          simp [hb]
        · exact ih (by assumption) rr hrr
      · cases h
    · cases h

theorem join_rows_spec {li ri : Nat} :
    ∀ {ls rs out : List Row}, join_rows li ri ls rs = some out →
      out = ls.flatMap (fun lr =>
        (rs.filter (fun rr => lr.cells.get? li == rr.cells.get? ri)).map (join_row ri lr)) := by
  intro ls
  induction ls with
  | nil => intro rs out h; cases h; rfl
  | cons lr rest ih =>
    intro rs out h
    rw [join_rows] at h
    split at h
    · rename_i rows1 rows2 h1 h2
      cases h
      rw [List.flatMap_cons, join_one_spec h1, ih h2]
    · cases h

theorem load_dataset_wf {env : Env} {d : Dataset} {op : String} {t : Table}
    (h : load_dataset env d op = Except.ok t) :
    table_wf t ∧ t.header.Nodup := by
  cases d <;> rw [load_dataset] at h <;> split at h <;> cases h
  · refine ⟨⟨?_, show ∀ n ∈ City.numeric_columns, n ∈ City.column_names by decide⟩,
      show City.column_names.Nodup by decide⟩
    intro r hr
    obtain ⟨c, _, rfl⟩ := List.mem_map.mp hr
    rfl
  · refine ⟨⟨?_, show ∀ n ∈ Country.numeric_columns, n ∈ Country.column_names by decide⟩,
      show Country.column_names.Nodup by decide⟩
    intro r hr
    obtain ⟨c, _, rfl⟩ := List.mem_map.mp hr
    rfl
  · refine ⟨⟨?_, show ∀ n ∈ Language.numeric_columns, n ∈ Language.column_names by decide⟩,
      show Language.column_names.Nodup by decide⟩
    intro r hr
    obtain ⟨c, _, rfl⟩ := List.mem_map.mp hr
    rfl

theorem length_filter_ne_of_nodup :
    ∀ {l : List String} {c : String}, l.Nodup → c ∈ l →
      (l.filter (fun n => decide (n ≠ c))).length = l.length - 1 := by
  intro l
  induction l with
  | nil => intro c _ hc; simp at hc
  | cons a l ih =>
    intro c hnd hc
    rw [List.filter_cons]
    by_cases hac : a = c
    · subst hac
      have ha : a ∉ l := (List.nodup_cons.mp hnd).1
      rw [if_neg (by simp)]
      rw [List.filter_eq_self.mpr ?_]
      · simp
      · intro b hb
        simp only [decide_eq_true_eq]
        intro hba
        exact ha (hba ▸ hb)
    · have hcl : c ∈ l := by
        cases hc with
        | head => exact absurd rfl hac
        | tail _ hh => exact hh
      rw [if_pos (by simp [hac])]
      have hpos : 0 < l.length := List.length_pos.mpr (List.ne_nil_of_mem hcl)
      simp only [List.length_cons, ih (List.nodup_cons.mp hnd).2 hcl]
      omega

theorem process_operator_wf :
    ∀ (op : Operator) {ord : HashOrder} {env : Env} {t : Table},
      process_operator ord env op = EvalResult.ok t → table_wf t := by
  intro op
  induction op with
  | From_ d =>
    intro ord env t h
    rw [process_operator] at h
    split at h
    · rename_i table hload
      cases h
      exact (load_dataset_wf hload).1
    · cases h
  | Select chain names ih =>
    intro ord env t h
    rw [process_operator] at h
    split at h
    · rename_i table htable
      split at h
      · cases h
      · rename_i idxs hidx
        split at h
        · rename_i rows hrows
          cases h
          constructor
          · intro r hr
            exact ((select_rows_spec hrows).2 r hr).trans (select_indices_length hidx)
          · intro n hn
            exact (List.mem_filter.mp hn).1
        · cases h
    · cases h
    · cases h
  | Take chain count ih =>
    intro ord env t h
    rw [process_operator] at h
    split at h
    · rename_i table htable
      cases h
      refine ⟨?_, (ih htable).2⟩
      intro r hr
      exact (ih htable).1 r (List.take_subset _ _ hr)
    · cases h
    · cases h
  | OrderBy chain column ih =>
    intro ord env t h
    rw [process_operator] at h
    split at h
    · rename_i table htable
      split at h
      · split at h
        · cases h
        · rename_i col_index hfind
          split at h
          · rename_i rows hsort
            cases h
            exact ⟨fun r hr => (ih htable).1 r ((sort_table_perm hsort).subset hr), (ih htable).2⟩
          · cases h
      · cases h
    · cases h
    · cases h
  | CountBy chain column ih =>
    intro ord env t h
    rw [process_operator] at h
    split at h
    · rename_i table htable
      split at h
      · cases h
      · rename_i col_index hfind
        split at h
        · cases h
        · rename_i pairs hpairs
          split at h
          · rename_i rows hsort
            cases h
            constructor
            · intro r hr
              obtain ⟨p, _, rfl⟩ := List.mem_map.mp ((sort_table_perm hsort).subset hr)
              rfl
            · intro n hn
              by_cases hm : column ∈ table.numeric_columns
              · rw [if_pos hm] at hn
                exact hn
              · rw [if_neg hm] at hn
                simp only [List.mem_singleton] at hn
                simp [hn]
          · cases h
    · cases h
    · cases h
  | Join chain right column ih =>
    intro ord env t h
    rw [process_operator] at h
    split at h
    · rename_i left hleft
      split at h
      · cases h
      · rename_i right_table hright
        split at h
        · rename_i hcond
          split at h
          · rename_i left_index right_index hli hri
            split at h
            · rename_i rows hrows
              cases h
              have hlwf := ih hleft
              obtain ⟨hrwf, hnd⟩ := load_dataset_wf hright
              constructor
              · intro r hr
                rw [join_rows_spec hrows, List.mem_flatMap] at hr
                obtain ⟨lr, hlr, hr⟩ := hr
                obtain ⟨rr, hrr, rfl⟩ := List.mem_map.mp hr
                have hrrmem : rr ∈ right_table.rows := (List.mem_filter.mp hrr).1
                have hri_lt : right_index < right_table.header.length := find_idx_lt_length hri
                have hrlen : rr.cells.length = right_table.header.length := hrwf.1 rr hrrmem
                have hfl := length_filter_ne_of_nodup hnd hcond.2
                simp only [join_row, List.length_append, List.length_eraseIdx, hrlen,
                  if_pos hri_lt, hlwf.1 lr hlr, hfl]
              · intro n hn
                rcases List.mem_append.mp hn with hn | hn
                · exact List.mem_append.mpr (Or.inl (hlwf.2 n hn))
                · obtain ⟨hn1, hn2⟩ := List.mem_filter.mp hn
                  exact List.mem_append.mpr
                    (Or.inr (List.mem_filter.mpr ⟨hrwf.2 n hn1, hn2⟩))
            · cases h
          · cases h
        · cases h
    · cases h
    · cases h

theorem find_column_index_ok {table : Table} {name : String} {chain : Operator} {op : String}
    {i : Nat} (h : find_column_index table name chain op = Except.ok i) :
    table.find_column_index_by_name name = some i := by
  rw [find_column_index] at h
  split at h
  · cases h; assumption
  · cases h

theorem find_column_index_eq_ok {table : Table} {name : String} {i : Nat}
    (chain : Operator) (op : String) (h : table.find_column_index_by_name name = some i) :
    find_column_index table name chain op = Except.ok i := by
  rw [find_column_index, h]

theorem orderby_ok_inv {ord : HashOrder} {env : Env} {chain : Operator} {column : String}
    {t : Table}
    (h : process_operator ord env (Operator.OrderBy chain column) = EvalResult.ok t) :
    ∃ t0 col_index, process_operator ord env chain = EvalResult.ok t0 ∧
      column ∈ t0.numeric_columns ∧
      t0.find_column_index_by_name column = some col_index ∧
      sort_table t0.rows col_index = some t.rows ∧
      t.header = t0.header ∧ t.numeric_columns = t0.numeric_columns := by
  rw [process_operator] at h
  split at h
  · rename_i table htable
    split at h
    · rename_i hmem
      split at h
      · cases h
      · rename_i col_index hfind
        split at h
        · rename_i rows hsort
          cases h
          exact ⟨table, col_index, htable, hmem, find_column_index_ok hfind, hsort, rfl, rfl⟩
        · cases h
    · cases h
  · cases h
  · cases h

theorem join_ok_inv {ord : HashOrder} {env : Env} {chain : Operator} {right : Dataset}
    {column : String} {t : Table}
    (h : process_operator ord env (Operator.Join chain right column) = EvalResult.ok t) :
    ∃ left right_table li ri,
      process_operator ord env chain = EvalResult.ok left ∧
      load_dataset env right "JOIN" = Except.ok right_table ∧
      left.find_column_index_by_name column = some li ∧
      right_table.find_column_index_by_name column = some ri ∧
      column ∈ left.header ∧ column ∈ right_table.header ∧
      t.header = left.header ++ right_table.header.filter (fun n => decide (n ≠ column)) ∧
      join_rows li ri left.rows right_table.rows = some t.rows := by
  rw [process_operator] at h
  split at h
  · rename_i left hleft
    split at h
    · cases h
    · rename_i right_table hright
      split at h
      · rename_i hcond
        split at h
        · rename_i li ri hli hri
          split at h
          · rename_i rows hrows
            cases h
            exact ⟨left, right_table, li, ri, hleft, hright, hli, hri, hcond.1, hcond.2,
              rfl, hrows⟩
          · cases h
        · cases h
      · cases h
  · cases h
  · cases h

/-! ### The claims -/

/-- Claim C1 (code bug demonstration): the claim says evaluation always returns
a typed `Result` and never panics, but `process_countby` sorts its two-cell
histogram rows at `col_index`, the selected column's index in the *input*
table.  For `FROM city.csv COUNTBY CityPop` the index is 3, so the sort
comparator indexes `cells[3]` of two-cell rows and Rust panics (index out of
bounds); the embedding evaluates to `panicked` on a loader result with two
distinct city populations. -/
theorem c1_countby_out_of_bounds_panics :
    process_operator id env_city_pops
        (Operator.CountBy (Operator.From_ Dataset.city) "CityPop") =
      EvalResult.panicked := by
  rfl

/-- Claim C2 (code bug demonstration): the claim says CountBy output rows are
sorted by the count column (the second column) in descending order.  The code
sorts at the input-table index of the counted column; for
`FROM city.csv SELECT CityPop COUNTBY CityPop` that index is 0, so the
histogram is sorted by the *value* column: with populations 5, 1, 1 the
output rows carry counts 1 then 2 — not descending in the count column
(`row_ge 1` fails on the adjacent pair). -/
theorem c2_countby_sorted_by_value_not_count :
    process_operator id env_city_dup_pops
        (Operator.CountBy (Operator.Select (Operator.From_ Dataset.city) ["CityPop"]) "CityPop") =
      EvalResult.ok
        { header := ["CityPop", "count"], numeric_columns := ["CityPop", "count"],
          rows := [Row.mk [Cell.int64 5, Cell.int64 1], Row.mk [Cell.int64 1, Cell.int64 2]] } ∧
    ¬ ([Row.mk [Cell.int64 5, Cell.int64 1], Row.mk [Cell.int64 1, Cell.int64 2]].Chain'
        (row_ge 1)) := by
  refine ⟨rfl, fun hc => absurd (List.chain'_cons.mp hc).1 (by decide)⟩

/-- Claim C3 (counterexample): the claim says `FROM country.csv` yields the
numeric-column set {CountryPop} with Capital treated as non-numeric, but
`Country::numeric_columns` in `src/data.rs` is `["CountryPop", "Capital"]`
(as the help text in `src/main.rs` also documents). -/
theorem c3_country_numeric_counterexample :
    process_operator id env_one_country (Operator.From_ Dataset.country) =
      EvalResult.ok table_country1 ∧
    table_country1.numeric_columns ≠ ["CountryPop"] ∧
    "Capital" ∈ table_country1.numeric_columns := by
  exact ⟨rfl, by decide, by decide⟩

/-- Claim C3 (amended): for every dataset, a successful `From` evaluation
yields the dataset's fixed header and its declared numeric-column list —
City {CityID, CityPop}; Country {CountryPop, Capital}; Language {}. -/
theorem c3_from_schema (ord : HashOrder) (env : Env) (d : Dataset) (t : Table)
    (h : process_operator ord env (Operator.From_ d) = EvalResult.ok t) :
    t.header = dataset_column_names d ∧ t.numeric_columns = dataset_numeric_columns d := by
  rw [process_operator] at h
  split at h
  · rename_i table hload
    cases h
    cases d <;> rw [load_dataset] at hload <;> split at hload <;> cases hload <;> exact ⟨rfl, rfl⟩
  · cases h

/-- Witness for the amended C3 theorem at a concrete loader environment. -/
theorem c3_from_schema_witness :
    table_country1.header = dataset_column_names Dataset.country ∧
    table_country1.numeric_columns = dataset_numeric_columns Dataset.country :=
  c3_from_schema id env_one_country Dataset.country table_country1 rfl

/-- Claim C6: every table produced by a successful evaluation satisfies both
structural invariants: each row has one cell per header entry, and each
declared numeric column occurs in the header. -/
theorem c6_eval_table_invariants (ord : HashOrder) (env : Env) (op : Operator) (t : Table)
    (h : process_operator ord env op = EvalResult.ok t) :
    (∀ r ∈ t.rows, r.cells.length = t.header.length) ∧
      ∀ n ∈ t.numeric_columns, n ∈ t.header :=
  process_operator_wf op h

/-- Witness for C6 at a concrete evaluation. -/
theorem c6_eval_table_invariants_witness :
    (∀ r ∈ table_lang2.rows, r.cells.length = table_lang2.header.length) ∧
      ∀ n ∈ table_lang2.numeric_columns, n ∈ table_lang2.header :=
  c6_eval_table_invariants id env_two_languages (Operator.From_ Dataset.language) table_lang2 rfl

/-- Claim C7: Take returns the first `count` rows of its input unchanged with
header and numeric columns passed through, and two stacked Takes bound the
row count by `min n (min m (input row count))`. -/
theorem c7_take_semantics (ord : HashOrder) (env : Env) (chain : Operator) (n m : Nat)
    (t : Table) (h : process_operator ord env chain = EvalResult.ok t) :
    process_operator ord env (Operator.Take chain n) =
      EvalResult.ok
        { header := t.header, numeric_columns := t.numeric_columns,
          rows := t.rows.take n } ∧
    ∃ t2, process_operator ord env (Operator.Take (Operator.Take chain n) m) =
        EvalResult.ok t2 ∧
      t2.rows.length = min n (min m t.rows.length) := by
  have h1 : process_operator ord env (Operator.Take chain n) =
      EvalResult.ok
        { header := t.header, numeric_columns := t.numeric_columns,
          rows := t.rows.take n } := by
    rw [process_operator, h]
  refine ⟨h1, ⟨_, by rw [process_operator, h1], ?_⟩⟩
  simp only [List.length_take]
  omega

/-- Witness for C7 at a concrete evaluation. -/
theorem c7_take_semantics_witness :
    process_operator id env_city_two (Operator.Take (Operator.From_ Dataset.city) 1) =
      EvalResult.ok
        { header := table_city2.header, numeric_columns := table_city2.numeric_columns,
          rows := table_city2.rows.take 1 } ∧
    ∃ t2, process_operator id env_city_two
        (Operator.Take (Operator.Take (Operator.From_ Dataset.city) 1) 5) =
        EvalResult.ok t2 ∧
      t2.rows.length = min 1 (min 5 table_city2.rows.length) :=
  c7_take_semantics id env_city_two (Operator.From_ Dataset.city) 1 5 table_city2 rfl

/-- Claim C8: on a successful OrderBy evaluation the output rows are
non-increasing at the sorted column for every adjacent pair, and applying
OrderBy a second time with the same column yields the same table. -/
theorem c8_orderby_sorted_idempotent (ord : HashOrder) (env : Env) (chain : Operator)
    (column : String) (t : Table)
    (h : process_operator ord env (Operator.OrderBy chain column) = EvalResult.ok t) :
    (∃ col_index, t.find_column_index_by_name column = some col_index ∧
        t.rows.Chain' (row_ge col_index)) ∧
    process_operator ord env (Operator.OrderBy (Operator.OrderBy chain column) column) =
      EvalResult.ok t := by
  obtain ⟨t0, col_index, ht0, hmem, hfind, hsort, hheader, hnum⟩ := orderby_ok_inv h
  have hfind_t : t.find_column_index_by_name column = some col_index := by
    rw [Table.find_column_index_by_name, hheader]
    exact hfind
  constructor
  · exact ⟨col_index, hfind_t, sort_table_chain' hsort⟩
  · have hmem_t : column ∈ t.numeric_columns := by rw [hnum]; exact hmem
    rw [process_operator, h]
    simp [hmem_t, find_column_index_eq_ok _ _ hfind_t, sort_table_idem hsort]

/-- Witness for C8 at a concrete evaluation. -/
theorem c8_orderby_sorted_idempotent_witness :
    (∃ col_index, table_city_sorted.find_column_index_by_name "CityPop" = some col_index ∧
        table_city_sorted.rows.Chain' (row_ge col_index)) ∧
    process_operator id env_city_two
        (Operator.OrderBy (Operator.OrderBy (Operator.From_ Dataset.city) "CityPop") "CityPop") =
      EvalResult.ok table_city_sorted :=
  c8_orderby_sorted_idempotent id env_city_two (Operator.From_ Dataset.city) "CityPop"
    table_city_sorted rfl

/-- Claim C4 (code bug demonstration): the claim says OrderBy on a column in
the numeric-column set returns the rows sorted by that column's integer value.
`Capital` is in `Country::numeric_columns`, so `FROM country.csv ORDERBY
Capital` passes the numeric check, but `Capital` cells are `Cell::OptInt64`,
so `sort_table`'s comparator hits its `unreachable!()` arm and Rust panics as
soon as there are two rows; the embedding evaluates to `panicked`. -/
theorem c4_orderby_capital_panics :
    process_operator id env_two_countries
        (Operator.OrderBy (Operator.From_ Dataset.country) "Capital") =
      EvalResult.panicked := by
  rfl

/-- Claim C5: on a successful Join the output header is the left header
followed by the right header minus the join column, the output rows are
exactly the matching (left, right) pairs in left-major then right-major order
(each the left cells followed by the right cells minus the join cell), every
output row has left-header-length + right-header-length − 1 cells; and when
the join column is missing from either header the result is the
`NoSuchColumn` error. -/
theorem c5_join_spec (ord : HashOrder) (env : Env) (chain : Operator) (right : Dataset)
    (column : String) :
    (∀ t, process_operator ord env (Operator.Join chain right column) = EvalResult.ok t →
      ∃ left right_table li ri,
        process_operator ord env chain = EvalResult.ok left ∧
        load_dataset env right "JOIN" = Except.ok right_table ∧
        left.find_column_index_by_name column = some li ∧
        right_table.find_column_index_by_name column = some ri ∧
        t.header = left.header ++ right_table.header.filter (fun n => decide (n ≠ column)) ∧
        t.rows = left.rows.flatMap (fun lr =>
          (right_table.rows.filter
            (fun rr => lr.cells.get? li == rr.cells.get? ri)).map (join_row ri lr)) ∧
        ∀ r ∈ t.rows, r.cells.length = left.header.length + right_table.header.length - 1) ∧
    ∀ left right_table,
      process_operator ord env chain = EvalResult.ok left →
      load_dataset env right "JOIN" = Except.ok right_table →
      (column ∉ left.header ∨ column ∉ right_table.header) →
      process_operator ord env (Operator.Join chain right column) =
        EvalResult.err (OperatorError.NoSuchColumn "JOIN" chain column) := by
  constructor
  · intro t h
    obtain ⟨left, right_table, li, ri, hleft, hright, hli, hri, hcl, hcr, hheader, hrows⟩ :=
      join_ok_inv h
    refine ⟨left, right_table, li, ri, hleft, hright, hli, hri, hheader,
      (join_rows_spec hrows).symm ▸ rfl, ?_⟩
    · intro r hr
      rw [show t.rows = _ from (join_rows_spec hrows :
        t.rows = _)] at hr
      rw [List.mem_flatMap] at hr
      obtain ⟨lr, hlr, hr⟩ := hr
      obtain ⟨rr, hrr, rfl⟩ := List.mem_map.mp hr
      have hlwf := process_operator_wf chain hleft
      obtain ⟨hrwf, hnd⟩ := load_dataset_wf hright
      have hri_lt : ri < right_table.header.length := find_idx_lt_length hri
      have hrlen : rr.cells.length = right_table.header.length :=
        hrwf.1 rr (List.mem_filter.mp hrr).1
      have hllen : lr.cells.length = left.header.length := hlwf.1 lr hlr
      simp only [join_row, List.length_append, List.length_eraseIdx, hrlen,
        if_pos hri_lt, hllen]
      omega
  · intro left right_table hleft hright hmiss
    have hneg : ¬(column ∈ left.header ∧ column ∈ right_table.header) := by
      rcases hmiss with hm | hm
      · exact fun hc => hm hc.1
      · exact fun hc => hm hc.2
    rw [process_operator]
    simp only [hleft, hright, if_neg hneg]

/-- Witness for C5 at a concrete evaluation: joining on a column that is
absent from the right header yields the `NoSuchColumn` error. -/
theorem c5_join_spec_witness :
    process_operator id env_city_lang
        (Operator.Join (Operator.From_ Dataset.city) Dataset.language "CityName") =
      EvalResult.err
        (OperatorError.NoSuchColumn "JOIN" (Operator.From_ Dataset.city) "CityName") :=
  (c5_join_spec id env_city_lang (Operator.From_ Dataset.city) Dataset.language "CityName").2
    _ _ rfl rfl (Or.inr (by decide))

/-- Claim C9 (counterexample): the claim says two evaluations of the same AST
with the same loader results produce the same rows in the same order.
`process_countby` materialises its groups from a freshly created `HashMap`,
whose iteration order differs between map instances; for
`FROM language.csv COUNTBY Language` with two tied counts, the reversed
iteration order (a permutation a hash map may produce) yields a different row
order than the first-insertion order. -/
theorem c9_countby_order_counterexample :
    process_operator (fun pairs => pairs.reverse) env_two_languages
        (Operator.CountBy (Operator.From_ Dataset.language) "Language") ≠
      process_operator id env_two_languages
        (Operator.CountBy (Operator.From_ Dataset.language) "Language") := by
  decide

/-- Claim C9 (amended): evaluation is stateless and is a pure function of the
AST, the loader results, and the hash map's iteration order; for every chain
containing no CountBy node the iteration order is irrelevant, so two
evaluations with the same loader results are identical. -/
theorem c9_countby_free_deterministic (ord1 ord2 : HashOrder) (env : Env) :
    ∀ op : Operator, countby_free op = true →
      process_operator ord1 env op = process_operator ord2 env op := by
  intro op
  induction op with
  | From_ d => intro _; rfl
  | Select chain names ih =>
    intro h
    rw [countby_free] at h
    rw [process_operator, process_operator, ih h]
  | Take chain count ih =>
    intro h
    rw [countby_free] at h
    rw [process_operator, process_operator, ih h]
  | OrderBy chain column ih =>
    intro h
    rw [countby_free] at h
    rw [process_operator, process_operator, ih h]
  | CountBy chain column ih =>
    intro h
    rw [countby_free] at h
    cases h
  | Join chain right column ih =>
    intro h
    rw [countby_free] at h
    rw [process_operator, process_operator, ih h]

/-- Witness for the amended C9 theorem at a concrete CountBy-free chain. -/
theorem c9_countby_free_deterministic_witness :
    countby_free (Operator.Take (Operator.From_ Dataset.language) 1) = true ∧
    process_operator (fun pairs => pairs.reverse) env_two_languages
        (Operator.Take (Operator.From_ Dataset.language) 1) =
      process_operator id env_two_languages
        (Operator.Take (Operator.From_ Dataset.language) 1) :=
  ⟨rfl, c9_countby_free_deterministic _ _ _ _ rfl⟩

/-- Claim C10: `parse_command` strips the trailing newline with
`strip_suffix("\n")` and maps every input that does not end in a newline
character to `NoInput`, so even the well-formed `"FROM city.csv"` without a
trailing newline is neither parsed into an Operator nor reported as an input
error. -/
theorem c10_no_trailing_newline_noinput :
    (∀ input : String, input.data.getLast? ≠ some '\n' →
      parse_command input = Command.NoInput) ∧
    parse_command "FROM city.csv" = Command.NoInput := by
  constructor
  · intro input hinput
    simp [parse_command, strip_newline, hinput]
  · rfl

/-- Witness for C10 at a concrete input without a trailing newline. -/
theorem c10_no_trailing_newline_noinput_witness :
    "abc".data.getLast? ≠ some '\n' ∧ parse_command "abc" = Command.NoInput :=
  ⟨by decide, c10_no_trailing_newline_noinput.1 "abc" (by decide)⟩

end ToyQuery
